import Mathlib

/-!
Verification of the email_summarizer batch pipeline.

Shallow embedding of the core pipeline code:
  * `src/email_summarizer/utils/error_handler.py`  (error classification)
  * `src/email_summarizer/chain.py`                (scheduler loop, run coordinator, rollback)
  * `src/email_summarizer/utils/html_utils.py`     (rating extraction, composer ordering)
  * `src/email_summarizer/utils/email_utils.py`    (reader-output parsing)
  * `src/email_summarizer/tools/email_reader.py`   (intake, idempotency-store write)
  * `src/email_summarizer/tools/email_sender.py`   (dispatch retry policy)

Python strings are Lean `String`s; Python `None`-able strings are `Option String`.
Two distinct on-disk id records appear (each a JSON list under the key
"processed_ids", modelled as a `List String`): the reader's Idempotency Store at
`<root>/src/state/processed_emails.json` (`email_reader.py` lines 24-26 walk two
directories up from `tools/email_reader.py`), and the legacy location
`<root>/state/processed_emails.json` that `chain.py`'s rollback resolves (lines
220-222 walk two directories up from `chain.py`, which sits one level higher).
The legacy file may be absent, so it is an `Option (List String)`.
-/

namespace EmailSummarizer

/-! ## Python string primitives used by the source -/

/-- Python `sub in s` substring test (over char lists). -/
def listHasSub (s sub : List Char) : Bool :=
  match s with
  | [] => sub.isEmpty
  | _ :: t => sub.isPrefixOf s || listHasSub t sub

/-- Python `sub in s` on strings. -/
def strHasSub (s sub : String) : Bool :=
  listHasSub s.data sub.data

/-- Python `s.lower()` (ASCII letters; the markers tested by the source are ASCII). -/
def pyLower (s : String) : String :=
  ⟨s.data.map Char.toLower⟩

/-- Whitespace stripped by Python `str.strip()` (ASCII subset, which covers the payloads). -/
def isPySpace (c : Char) : Bool :=
  c = ' ' || c = '\t' || c = '\n' || c = '\x0d' || c = '\x0b' || c = '\x0c'

/-- Python `s.strip()` on char lists. -/
def pyStrip (s : List Char) : List Char :=
  ((s.dropWhile isPySpace).reverse.dropWhile isPySpace).reverse

/-- Python `s.count(c)` for a single-character needle. -/
def countChar (c : Char) (s : List Char) : Nat :=
  s.countP (fun a => a = c)

/-- Python `s.split(chr(10))`: split on every newline, keeping empty pieces. -/
def splitNl : List Char → List (List Char)
  | [] => [[]]
  | c :: t =>
    let r := splitNl t
    if c = '\n' then [] :: r
    else
      match r with
      | [] => [[c]]
      | l :: ls => (c :: l) :: ls

/-! ## utils/error_handler.py : handle_llm_error -/

/--
`handle_llm_error(error)` from `utils/error_handler.py`, lines 10-43.
Input is `str(error)`; output is `(message, should_continue)` where
`should_continue = False` means the scheduler stops dispatching (Fatal) and
`True` means the item is recorded as failed and processing continues (Transient).
-/
def handle_llm_error (e : String) : String × Bool :=
  if strHasSub e "402" && strHasSub e "Insufficient credits" then
    ("💳 LLM服务余额不足，请充值后重试", false)
  else if strHasSub e "401" || strHasSub e "Unauthorized" then
    ("🔑 LLM API密钥无效或已过期", false)
  else if strHasSub e "Connection" || strHasSub (pyLower e) "timeout" then
    ("🌐 网络连接错误，请检查网络连接", true)
  else if strHasSub e "404" || strHasSub (pyLower e) "model" then
    ("🤖 指定的LLM模型不存在或不可用", false)
  else if strHasSub e "429" || strHasSub (pyLower e) "rate limit" then
    ("⏱️ LLM请求频率过高，请稍后重试", true)
  else
    ("❌ LLM处理错误: " ++ (e.take 100) ++ "...", true)

/-! ## chain.py : _process_emails_parallel (summarization scheduler) -/

/-- Result of one concurrent summarization unit: the chain either returns a
payload string or raises an exception (represented by `str(e)`). -/
inductive UnitResult where
  | ok (payload : String)
  | exn (message : String)
deriving DecidableEq

/--
The `for future in as_completed(...)` loop body of `_process_emails_parallel`
(`chain.py` lines 100-127): completions arrive in `order` (indices into the
batch); a successful future stores its payload at its own index
(`summary_htmls[index] = result`); an exception is classified by
`handle_llm_error` and, when `should_continue` is false, the loop breaks and
the remaining completions are never recorded.
-/
def processCompletions (outcome : Nat → UnitResult) : List Nat → List (Option String) → List (Option String)
  | [], acc => acc
  | i :: rest, acc =>
    match outcome i with
    | .ok r => processCompletions outcome rest (acc.set i (some r))
    | .exn e =>
      if (handle_llm_error e).2 then processCompletions outcome rest acc
      else acc

/--
`_process_emails_parallel` (`chain.py` lines 69-141), abstracted over the
worker completion order and per-item outcomes: `summary_htmls` starts as
`[None] * len(contents)` and is filled in completion order.
-/
def _process_emails_parallel (n : Nat) (outcome : Nat → UnitResult) (order : List Nat) : List (Option String) :=
  processCompletions outcome order (List.replicate n none)

/-! ## utils/html_utils.py : _extract_rating_from_html

The source calls `re.search('<td[^>]*color:' + ws + '#f39c12[^>]*>([^<]+)</td>', html, IGNORECASE)`.
Because none of the literal pieces (`color:`, whitespace, `#f39c12`) can contain
the character `>` and the capture `([^<]+)` cannot contain `<`, the leftmost
regex match is determined position by position: at a caseless `<td`, the
`color:...#f39c12` sequence must occur before the first following `>`, the
capture is the maximal nonempty `<`-free run after that `>`, and it must be
followed by a caseless `</td>`. The functions below implement exactly that
search, scanning start positions left to right as `re.search` does. -/

/-- Match a caseless literal (given in lowercase) at the head, returning the rest. -/
def matchLit (lit : List Char) (s : List Char) : Option (List Char) :=
  match lit, s with
  | [], rest => some rest
  | _ :: _, [] => none
  | c :: lit₂, a :: s₂ => if a.toLower = c then matchLit lit₂ s₂ else none

/-- `color:` followed by `\s*` followed by `#f39c12`, anchored at the head. -/
def matchColorAt (s : List Char) : Bool :=
  match matchLit "color:".data s with
  | some rest => (matchLit "#f39c12".data (rest.dropWhile isPySpace)).isSome
  | none => false

/-- Does `color:\s*#f39c12` occur anywhere in the region before the first `>`? -/
def hasColorSpec : List Char → Bool
  | [] => false
  | a :: t => matchColorAt (a :: t) || hasColorSpec t

/-- After `<td...`: skip to the first `>`, then capture `([^<]+)` and require `</td>`. -/
def matchTdTail (s : List Char) : Option (List Char) :=
  match s.dropWhile (fun c => c ≠ '>') with
  | [] => none
  | _ :: afterGt =>
    if (afterGt.takeWhile (fun c => c ≠ '<')).isEmpty then none
    else if (matchLit "</td>".data (afterGt.dropWhile (fun c => c ≠ '<'))).isSome then
      some (afterGt.takeWhile (fun c => c ≠ '<'))
    else none

/-- Try the full `<td...>...</td>` pattern anchored at the head of `s`. -/
def matchTdAt (s : List Char) : Option (List Char) :=
  match matchLit "<td".data s with
  | none => none
  | some afterTd =>
    if hasColorSpec (afterTd.takeWhile (fun c => c ≠ '>')) then matchTdTail afterTd
    else none

/-- `re.search`: try every start position left to right. -/
def searchTd : List Char → Option (List Char)
  | [] => none
  | a :: t =>
    match matchTdAt (a :: t) with
    | some g => some g
    | none => searchTd t

/-- The `for line in lines` fallback of `_extract_rating_from_html`
(lines 25-30): the first line containing `'★'` or `'☆'` yields its count of `'★'`. -/
def findStarLine : List (List Char) → Nat
  | [] => 0
  | l :: ls => if l.contains '★' || l.contains '☆' then countChar '★' l else findStarLine ls

/--
`_extract_rating_from_html` (`utils/html_utils.py` lines 11-32): extract the
star rating (count of `'★'`) from an HTML card. If the `<td>` pattern matches,
count stars in the stripped capture group; otherwise scan lines for a star
character; otherwise 0. (The Python `isinstance`/`try` guards cannot fire for a
string input because no step raises; totality is inherited by the embedding.)
-/
def _extract_rating_from_html (html : String) : Nat :=
  match searchTd html.data with
  | some grp => countChar '★' (pyStrip grp)
  | none => findStarLine (splitNl html.data)

/-! ## utils/html_utils.py : compose_final_html_body -/

/-- Python truthiness of an optional string (`if s` on a `str | None`). -/
def isTruthyStr : Option String → Bool
  | none => false
  | some s => ¬ s.isEmpty

/-- `[s for s in cards if s]`. -/
def collectTruthy (l : List (Option String)) : List String :=
  match l with
  | [] => []
  | none :: t => collectTruthy t
  | some s :: t => if s.isEmpty then collectTruthy t else s :: collectTruthy t

/-- Stable insertion for a descending sort by a numeric key: the new element
(which precedes the list elements in the original order) goes before the first
element whose key is ≤ its own. -/
def insertByKeyDesc (key : α → Nat) (a : α) : List α → List α
  | [] => [a]
  | b :: l => if key b ≤ key a then a :: b :: l else b :: insertByKeyDesc key a l

/-- Python `sorted(l, key=key, reverse=True)`: a stable descending sort.
(CPython's sort is stable; `reverse=True` keeps equal-key elements in their
original relative order. Any stable descending sort is extensionally equal;
insertion sort is used here.) -/
def sortByKeyDesc (key : α → Nat) : List α → List α
  | [] => []
  | a :: l => insertByKeyDesc key a (sortByKeyDesc key l)

/-- The composed digest, at the boundary of the rendering collaborator: the
sorted card snippets (joined by newlines inside the fixed HTML template) and
which footer variant the template uses. The surrounding static HTML/CSS
template text is the renderer's concern and carries no card data. -/
structure ComposedDoc where
  cards : List String
  hasArchiveNote : Bool
deriving DecidableEq

/--
`compose_final_html_body(summary_htmls, archive_path)` (`utils/html_utils.py`
lines 50-148) as called from `chain.py` line 267 (no `emails_meta`, so no
timestamp injection): filter out falsy entries, sort by extracted rating
descending (stable), and choose the footer by `archive_path` presence. The
`except` branch around `sorted` is unreachable: the key function is total.
-/
def compose_final_html_body (summary_htmls : List (Option String)) (archive_path : Option String) : ComposedDoc :=
  { cards := sortByKeyDesc _extract_rating_from_html (collectTruthy summary_htmls)
    hasArchiveNote := archive_path.isSome }

/-! ## tools/email_sender.py : EmailSenderTool._run retry policy

`_run` is decorated `@retry(wait=wait_exponential(multiplier=1, min=2, max=30),
stop=stop_after_attempt(3))` and its body re-raises every caught exception, so
every error — SMTP auth failures and refused recipients included — is retried
until the attempt budget of 3 is exhausted. An attempt's behavior is a function
from the 1-based attempt number to the SMTP outcome. -/

/-- tenacity `wait_exponential(multiplier=1, min=2, max=30)`: the sleep before
retrying after attempt `n` is `multiplier * 2^n` clamped into `[min, max]`. -/
def wait_exponential_1_2_30 (n : Nat) : Nat :=
  min 30 (max 2 (2 ^ n))

/-- The tenacity retry loop: run attempt `k`; on success stop, on error retry
while `fuel` remains, otherwise report the final error. Returns the number of
attempts made and the final outcome. -/
def retryLoop (attempt : Nat → Except String String) (k : Nat) : Nat → Nat × Except String String
  | 0 => (k, attempt k)
  | fuel + 1 =>
    match attempt k with
    | .ok s => (k, .ok s)
    | .error _ => retryLoop attempt (k + 1) fuel

/-- `EmailSenderTool._run` under its decorator (`email_sender.py` lines 76-108):
`stop_after_attempt(3)` allows attempts 1, 2, 3. -/
def EmailSenderTool_run (attempt : Nat → Except String String) : Nat × Except String String :=
  retryLoop attempt 1 2

/-! ## tools/email_reader.py : EmailReaderTool._run (intake + store write) -/

/-- The fields of one intake result dict that the rest of the pipeline reads
(`email_reader.py` lines 307-315). Attachment download and HTML-to-text
conversion are collaborator work; `content` is their combined output. -/
structure MsgRecord where
  id : String
  subject : String
  content : String
deriving DecidableEq

/-- Decoded envelope data for one UID (the collaborator's MIME/UTF-7 decoding
already applied, as the source does via `_decode_header`). -/
structure Envelope where
  messageId : String
  subject : String
  content : String
deriving DecidableEq

/-- One IMAP folder as the reader sees it: its decoded name, the UID list
returned by `client.search` (`UNSEEN` or `ALL`), and per-UID envelope data
(`none` models a UID whose ENVELOPE/BODYSTRUCTURE fetch came back empty,
which the source skips). -/
structure Folder where
  name : String
  uids : List Nat
  meta : Nat → Option Envelope

/-- `max_count = max(1, min(50, int(max_count)))` (`email_reader.py` line 189). -/
def clampCount (m : Int) : Nat :=
  (max 1 (min 50 m)).toNat

/-- `uniq_id = mid if mid else f"uid-{uid}-{folder}"` (line 267). -/
def uniqId (mid : String) (uid : Nat) (folderName : String) : String :=
  if mid.isEmpty then "uid-" ++ toString uid ++ "-" ++ folderName else mid

/-- Mutable state threaded through the reader's folder loop. -/
structure IntakeState where
  results : List MsgRecord
  new_ids : List String
  sessionUids : List Nat
deriving Inhabited

/-- The per-UID body of the reader loop (lines 257-317): skip UIDs with missing
metadata, skip ids already in the loaded `processed_ids`, otherwise append the
record, remember the new id, and mark the UID processed for this session. -/
def intakeUidStep (processed_ids : List String) (f : Folder) (st : IntakeState) (uid : Nat) : IntakeState :=
  match f.meta uid with
  | none => st
  | some env =>
    let uniq := uniqId env.messageId uid f.name
    if processed_ids.contains uniq then st
    else
      { results := st.results ++ [{ id := uniq
                                    subject := if env.subject.isEmpty then "(无主题)" else env.subject
                                    content := env.content }]
        new_ids := st.new_ids ++ [uniq]
        sessionUids := st.sessionUids ++ [uid] }

/-- One folder iteration (lines 220-321): `sorted(uids, reverse=True)[:max_count]`
selects the newest `max_count` UIDs, the session set drops UIDs already handled
by an earlier folder, then each remaining UID runs `intakeUidStep`. -/
def intakeFolderStep (processed_ids : List String) (maxCount : Nat) (st : IntakeState) (f : Folder) : IntakeState :=
  let latest := (sortByKeyDesc (fun u => u) f.uids).take maxCount
  let toProcess := latest.filter (fun u => ¬ st.sessionUids.contains u)
  toProcess.foldl (intakeUidStep processed_ids f) st

/-- The folder loop of `EmailReaderTool._run` over the given folders with the
loaded `processed_ids` list. -/
def intakeRun (folders : List Folder) (maxCount : Int) (processed_ids : List String) : IntakeState :=
  folders.foldl (intakeFolderStep processed_ids (clampCount maxCount)) ⟨[], [], []⟩

/-- The store write at the end of a successful read (lines 323-326):
`processed_ids.update(new_ids)` on the loaded set, then the list is saved.
CPython's `set` iteration order on re-serialization is arbitrary
(hash-randomized); the model fixes one concrete order — the previously stored
ids deduplicated, as `set()` does, followed by the genuinely new ones — and the
theorems below read store contents at the membership level, which does not
depend on that choice. -/
def saveProcessedIds (old : List String) (new_ids : List String) : List String :=
  old.dedup ++ (new_ids.dedup.filter (fun i => ¬ old.contains i))

/-! ## chain.py : rollback and the run coordinator -/

/-- `mark_emails_as_unprocessed` (`chain.py` lines 217-236). Its
`state_file` is `<root>/state/processed_emails.json` — `base_dir` is two
`dirname`s above `chain.py` (`<root>`), one level above the `<root>/src` the
reader derives its `STATE_PATH` from — so this function operates on the legacy
record, not on the reader's Idempotency Store. When that legacy file exists,
every id of the given batch (ids taken from emails whose `id` field is truthy)
is dropped from its list; when it does not exist (`none`, the fresh-checkout
case, since only the legacy `core/` layout ever wrote it), the
`os.path.exists` guard makes the call do nothing. -/
def mark_emails_as_unprocessed (legacyStore : Option (List String)) (emails : List MsgRecord) :
    Option (List String) :=
  match legacyStore with
  | none => none
  | some store =>
    let email_ids := (emails.filter (fun e => ¬ e.id.isEmpty)).map MsgRecord.id
    some (store.filter (fun pid => ¬ email_ids.contains pid))

/-- The exception classes `run_pipeline` distinguishes in its `except` arms:
`concurrent.futures.TimeoutError` (the `as_completed` deadline),
`KeyboardInterrupt`, and any other exception. -/
inductive RunInterrupt where
  | timeout
  | keyboard
  | exn (message : String)
deriving DecidableEq

/-- The status string each `except` arm reports (`chain.py` lines 294-316). -/
def interruptStatus : RunInterrupt → String
  | .timeout => "timeout"
  | .keyboard => "interrupted"
  | .exn _ => "error"

/-- Everything external that one `run_pipeline` invocation observes:
the mailbox folders, the reader's stored id list (`<root>/src/state`), the
legacy `<root>/state` record if that file exists, the per-item summarizer
outcomes and the order completions arrive in, whether an exception interrupts
the run after intake (the deadline `TimeoutError` from `as_completed`, a
`KeyboardInterrupt`, or another error), whether the archiver succeeds, and the
final outcome of the send tool (after its internal retries). -/
structure RunEnv where
  limit : Int
  folders : List Folder
  initialStore : List String
  legacyStore : Option (List String)
  llmOutcome : Nat → UnitResult
  completionOrder : List Nat
  interrupt : Option RunInterrupt
  archiveOk : Bool
  sendResult : Except String Unit

/-- Observable outcome of one run: the reported status and batch count, the
final content of the reader's Idempotency Store, the final content of the
legacy `<root>/state` record, whether the send tool was invoked, and the
composed digest handed to it (if any). -/
structure RunOutput where
  status : String
  emailCount : Nat
  finalStore : List String
  finalLegacy : Option (List String)
  sendAttempted : Bool
  composed : Option ComposedDoc
deriving DecidableEq

/-- The summaries the scheduler phase would produce for `env`. -/
def runSummaries (env : RunEnv) : List (Option String) :=
  _process_emails_parallel (intakeRun env.folders env.limit env.initialStore).results.length
    env.llmOutcome env.completionOrder

/--
`run_pipeline` (`chain.py` lines 239-316): read (which writes all new ids to
the reader's store, `email_reader.py` lines 323-326) — early-return on an
empty batch — summarize in parallel — archive (skipped when no truthy summary
exists) — compose — send. A send error, and any `TimeoutError` /
`KeyboardInterrupt` / exception after intake, calls
`mark_emails_as_unprocessed` before returning — but that call resolves the
legacy `<root>/state` path, so the reader's store keeps the intake-written ids
on every path; a successful send writes nothing further either.
-/
def run_pipeline (env : RunEnv) : RunOutput :=
  let st := intakeRun env.folders env.limit env.initialStore
  let store1 := if st.new_ids.isEmpty then env.initialStore
                else saveProcessedIds env.initialStore st.new_ids
  let emails := st.results
  if emails.isEmpty then
    { status := "no_new_emails", emailCount := 0, finalStore := store1
      finalLegacy := env.legacyStore, sendAttempted := false, composed := none }
  else
    match env.interrupt with
    | some intr =>
      { status := interruptStatus intr, emailCount := emails.length
        finalStore := store1
        finalLegacy := mark_emails_as_unprocessed env.legacyStore emails
        sendAttempted := false, composed := none }
    | none =>
      let summary_htmls := _process_emails_parallel emails.length env.llmOutcome env.completionOrder
      let valid_summaries := collectTruthy summary_htmls
      let archive_path := if valid_summaries.isEmpty then none
                          else if env.archiveOk then some "archive.html" else none
      let doc := compose_final_html_body summary_htmls archive_path
      match env.sendResult with
      | .ok _ =>
        { status := "sent", emailCount := emails.length, finalStore := store1
          finalLegacy := env.legacyStore, sendAttempted := true, composed := some doc }
      | .error _ =>
        { status := "send_failed", emailCount := emails.length
          finalStore := store1
          finalLegacy := mark_emails_as_unprocessed env.legacyStore emails
          sendAttempted := true, composed := some doc }

/-! ## utils/email_utils.py : extract_email_contents, with `json.loads`

`extract_email_contents` runs `json.loads` on the reader tool's output string
and returns `data.get("emails", [])`, with every exception (parse errors, and
the `AttributeError` from `.get` on a non-dict) turned into `[]`. The JSON
grammar accepted by `json.loads` is embedded below (objects, arrays, strings
with escapes, numbers, literals, and the Python extensions NaN/Infinity). -/

/-- Parsed JSON values (Python dicts keep the last of duplicate keys; the raw
pair list is stored and lookups take the last binding). -/
inductive Json where
  | null
  | bool (b : Bool)
  | num (raw : String)
  | str (s : String)
  | arr (elems : List Json)
  | obj (kvs : List (String × Json))
deriving BEq

/-- JSON whitespace (`json.loads` skips space, tab, newline, carriage return). -/
def jsonWs (c : Char) : Bool :=
  c = ' ' || c = '\t' || c = '\n' || c = '\x0d'

/-- ASCII digit test. -/
def isDig (c : Char) : Bool :=
  '0' ≤ c && c ≤ '9'

/-- Hexadecimal digit value, for `\uXXXX` escapes (codepoint arithmetic:
48-57 are the digits, 97-102 lowercase a-f, 65-70 uppercase A-F). -/
def hexVal (c : Char) : Option Nat :=
  let n := c.toNat
  if 48 ≤ n ∧ n ≤ 57 then some (n - 48)
  else if 97 ≤ n ∧ n ≤ 102 then some (n - 87)
  else if 65 ≤ n ∧ n ≤ 70 then some (n - 55)
  else none

/-- JSON string body after the opening quote, with a fuel bound (the input
length suffices): returns the decoded content and the input remaining after
the closing quote. -/
def parseStrBody : Nat → List Char → Option (List Char × List Char)
  | _, [] => none
  | 0, _ :: _ => none
  | _ + 1, '"' :: rest => some ([], rest)
  | fuel + 1, '\\' :: rest =>
    match rest with
    | [] => none
    | e :: rest₁ =>
      match e with
      | '"' => (parseStrBody fuel rest₁).map (fun p => ('"' :: p.1, p.2))
      | '\\' => (parseStrBody fuel rest₁).map (fun p => ('\\' :: p.1, p.2))
      | '/' => (parseStrBody fuel rest₁).map (fun p => ('/' :: p.1, p.2))
      | 'b' => (parseStrBody fuel rest₁).map (fun p => ('\x08' :: p.1, p.2))
      | 'f' => (parseStrBody fuel rest₁).map (fun p => ('\x0c' :: p.1, p.2))
      | 'n' => (parseStrBody fuel rest₁).map (fun p => ('\n' :: p.1, p.2))
      | 'r' => (parseStrBody fuel rest₁).map (fun p => ('\x0d' :: p.1, p.2))
      | 't' => (parseStrBody fuel rest₁).map (fun p => ('\t' :: p.1, p.2))
      | 'u' =>
        match rest₁ with
        | a :: b :: c :: d :: rest₂ =>
          match hexVal a, hexVal b, hexVal c, hexVal d with
          | some ha, some hb, some hc, some hd =>
            (parseStrBody fuel rest₂).map
              (fun p => (Char.ofNat (((ha * 16 + hb) * 16 + hc) * 16 + hd) :: p.1, p.2))
          | _, _, _, _ => none
        | _ => none
      | _ => none
  | fuel + 1, c :: rest => (parseStrBody fuel rest).map (fun p => (c :: p.1, p.2))

/-- JSON number: `-?(0|[1-9][0-9]*)(.[0-9]+)?([eE][+-]?[0-9]+)?`; returns the
raw matched characters and the rest. -/
def parseNum (s : List Char) : Option (List Char × List Char) :=
  let (sign, s₁) := match s with
    | '-' :: t => (['-'], t)
    | _ => (([] : List Char), s)
  match s₁ with
  | [] => none
  | c :: t =>
    if ¬ isDig c then none
    else
      let (ip, r₁) := if c = '0' then ([c], t) else (s₁.takeWhile isDig, s₁.dropWhile isDig)
      let (fp, r₂) := match r₁ with
        | '.' :: u =>
          let ds := u.takeWhile isDig
          if ds.isEmpty then ([], r₁) else ('.' :: ds, u.dropWhile isDig)
        | _ => (([] : List Char), r₁)
      if fp.isEmpty && (match r₁ with | '.' :: _ => true | _ => false) then none
      else
        match r₂ with
        | e :: u =>
          if e = 'e' || e = 'E' then
            let (es, u₂) := match u with
              | '+' :: v => (['+'], v)
              | '-' :: v => (['-'], v)
              | _ => (([] : List Char), u)
            let ds := u₂.takeWhile isDig
            if ds.isEmpty then none
            else some (sign ++ ip ++ fp ++ e :: es ++ ds, u₂.dropWhile isDig)
          else some (sign ++ ip ++ fp, r₂)
        | [] => some (sign ++ ip ++ fp, r₂)

/-- The three JSON parsers (value, object members, array elements) built by
structural recursion on a shared fuel bound; input length plus one is always
enough fuel, since every recursive step consumes at least one input character. -/
def jsonP : Nat →
    (List Char → Option (Json × List Char))
    × (List Char → Option (List (String × Json) × List Char))
    × (List Char → Option (List Json × List Char))
  | 0 => (fun _ => none, fun _ => none, fun _ => none)
  | fuel + 1 =>
    ( -- one JSON value, leading whitespace allowed
      fun s₀ =>
        match s₀.dropWhile jsonWs with
        | '\x7b' :: rest =>
          match rest.dropWhile jsonWs with
          | '\x7d' :: r₂ => some (.obj [], r₂)
          | r₁ =>
            match (jsonP fuel).2.1 r₁ with
            | some (kvs, r₂) => some (.obj kvs, r₂)
            | none => none
        | '[' :: rest =>
          match rest.dropWhile jsonWs with
          | ']' :: r₂ => some (.arr [], r₂)
          | r₁ =>
            match (jsonP fuel).2.2 r₁ with
            | some (xs, r₂) => some (.arr xs, r₂)
            | none => none
        | '"' :: rest => (parseStrBody (rest.length + 1) rest).map (fun p => (.str ⟨p.1⟩, p.2))
        | 't' :: 'r' :: 'u' :: 'e' :: r => some (.bool true, r)
        | 'f' :: 'a' :: 'l' :: 's' :: 'e' :: r => some (.bool false, r)
        | 'n' :: 'u' :: 'l' :: 'l' :: r => some (.null, r)
        | 'N' :: 'a' :: 'N' :: r => some (.num "NaN", r)
        | 'I' :: 'n' :: 'f' :: 'i' :: 'n' :: 'i' :: 't' :: 'y' :: r => some (.num "Infinity", r)
        | '-' :: 'I' :: 'n' :: 'f' :: 'i' :: 'n' :: 'i' :: 't' :: 'y' :: r => some (.num "-Infinity", r)
        | s => (parseNum s).map (fun p => (.num ⟨p.1⟩, p.2))
    , -- object members: a string key, a colon, a value, then a comma or closing brace
      fun s =>
        match s.dropWhile jsonWs with
        | '"' :: rest =>
          match parseStrBody (rest.length + 1) rest with
          | none => none
          | some (k, r₁) =>
            match r₁.dropWhile jsonWs with
            | ':' :: r₂ =>
              match (jsonP fuel).1 r₂ with
              | none => none
              | some (v, r₃) =>
                match r₃.dropWhile jsonWs with
                | ',' :: r₄ => ((jsonP fuel).2.1 r₄).map (fun p => ((⟨k⟩, v) :: p.1, p.2))
                | '\x7d' :: r₄ => some ([(⟨k⟩, v)], r₄)
                | _ => none
            | _ => none
        | _ => none
    , -- array elements: a value, then a comma or closing bracket
      fun s =>
        match (jsonP fuel).1 s with
        | none => none
        | some (v, r₁) =>
          match r₁.dropWhile jsonWs with
          | ',' :: r₂ => ((jsonP fuel).2.2 r₂).map (fun p => (v :: p.1, p.2))
          | ']' :: r₂ => some ([v], r₂)
          | _ => none )

/-- One JSON value, leading whitespace allowed; `fuel` bounds recursion depth. -/
def parseValue (fuel : Nat) (s : List Char) : Option (Json × List Char) :=
  (jsonP fuel).1 s

/-- `json.loads`: parse one value, require only whitespace after it. -/
def json_loads (s : String) : Option Json :=
  match parseValue (s.length + 1) s.data with
  | some (v, rest) => if (rest.dropWhile jsonWs).isEmpty then some v else none
  | none => none

/-- Python `dict.get(k)` for the dict `json.loads` builds from an object's
key/value pairs (later duplicates overwrite earlier ones). -/
def jsonGet (kvs : List (String × Json)) (k : String) : Option Json :=
  kvs.foldl (fun acc kv => if kv.1 = k then some kv.2 else acc) none

/--
`extract_email_contents` (`utils/email_utils.py` lines 10-16):
`json.loads(reader_output).get("emails", [])` with every exception — a parse
failure, or the `AttributeError` from calling `.get` on a non-dict — caught and
turned into `[]`. The returned value is whatever sits under the `"emails"` key,
of any JSON type.
-/
def extract_email_contents (reader_output : String) : Json :=
  match json_loads reader_output with
  | some (.obj kvs) => (jsonGet kvs "emails").getD (.arr [])
  | _ => .arr []

/-! ## Concrete test fixtures

Small concrete mailboxes and run environments used to evaluate the pipeline at
specific inputs. -/

/-- An inbox with two unread messages; UID 2 is the newest. -/
def inboxFolder : Folder :=
  { name := "INBOX"
    uids := [1, 2]
    meta := fun uid =>
      if uid = 1 then some { messageId := "m1", subject := "s1", content := "c1" }
      else if uid = 2 then some { messageId := "m2", subject := "s2", content := "c2" }
      else none }

/-- A second (Gmail category) folder with one unread message. -/
def spamFolder : Folder :=
  { name := "[Gmail]/Spam"
    uids := [3]
    meta := fun uid =>
      if uid = 3 then some { messageId := "b3", subject := "s3", content := "c3" }
      else none }

/-- A run on `inboxFolder` in which the first unit summarizes successfully and
the run-level deadline then expires (`as_completed` raises its TimeoutError);
the legacy `<root>/state` file does not exist (fresh checkout). -/
def envTimeout : RunEnv :=
  { limit := 20, folders := [inboxFolder], initialStore := [], legacyStore := none
    llmOutcome := fun i => if i = 0 then .ok "<p>card</p>" else .exn "still running"
    completionOrder := [0], interrupt := some .timeout, archiveOk := true
    sendResult := .ok () }

/-- A run on `inboxFolder` in which every summarization unit fails with an
unrecognized (Transient-classified) error and the send succeeds. -/
def envAllFail : RunEnv :=
  { limit := 20, folders := [inboxFolder], initialStore := [], legacyStore := none
    llmOutcome := fun _ => .exn "boom", completionOrder := [0, 1]
    interrupt := none, archiveOk := true, sendResult := .ok () }

/-- A run with no mailbox folders: intake yields nothing. -/
def envNoMail : RunEnv :=
  { limit := 20, folders := [], initialStore := ["m0"], legacyStore := none
    llmOutcome := fun _ => .exn "unused", completionOrder := []
    interrupt := none, archiveOk := true, sendResult := .ok () }

/-- The reader-loop invariant: every id recorded in `new_ids` was absent from
the loaded `processed_ids`, every collected record has a truthy id, and the
record ids are exactly `new_ids` in order. -/
def IntakeInv (processed_ids : List String) (st : IntakeState) : Prop :=
  (∀ x ∈ st.new_ids, processed_ids.contains x = false)
  ∧ (∀ e ∈ st.results, e.id.isEmpty = false)
  ∧ (st.results.map MsgRecord.id = st.new_ids)

/-! ## Scheduler lemmas -/

theorem processCompletions_length (outcome : Nat → UnitResult) (order : List Nat)
    (acc : List (Option String)) :
    (processCompletions outcome order acc).length = acc.length := by
  induction order generalizing acc with
  | nil => rfl
  | cons i rest ih =>
    simp only [processCompletions]
    cases outcome i with
    | ok r => rw [ih, List.length_set]
    | exn e => cases hc : (handle_llm_error e).2 <;> simp [hc, ih]

theorem processCompletions_getElem_notMem (outcome : Nat → UnitResult) (order : List Nat)
    (acc : List (Option String)) (j : Nat) (hj : j ∉ order) :
    (processCompletions outcome order acc)[j]? = acc[j]? := by
  induction order generalizing acc with
  | nil => rfl
  | cons i rest ih =>
    have hji : i ≠ j := fun h => hj (h ▸ List.mem_cons_self i rest)
    have hjr : j ∉ rest := fun h => hj (List.mem_cons_of_mem i h)
    simp only [processCompletions]
    cases outcome i with
    | ok r => rw [ih _ hjr, List.getElem?_set_ne hji]
    | exn e => cases hc : (handle_llm_error e).2 <;> simp [hc, ih _ hjr]

theorem processCompletions_all_ok (outcome : Nat → UnitResult) (p : Nat → String)
    (order : List Nat) (acc : List (Option String)) (j : Nat)
    (hok : ∀ i ∈ order, outcome i = .ok (p i)) (hmem : j ∈ order) (hlen : j < acc.length) :
    (processCompletions outcome order acc)[j]? = some (some (p j)) := by
  induction order generalizing acc with
  | nil => cases hmem
  | cons i rest ih =>
    have hoi : outcome i = .ok (p i) := hok i (List.mem_cons_self i rest)
    simp only [processCompletions, hoi]
    by_cases hjr : j ∈ rest
    · exact ih _ (fun k hk => hok k (List.mem_cons_of_mem i hk)) hjr
        (by rw [List.length_set]; exact hlen)
    · have hji : j = i := (List.mem_cons.mp hmem).resolve_right hjr
      subst hji
      rw [processCompletions_getElem_notMem outcome rest _ j hjr]
      exact List.getElem?_set_eq_of_lt (some (p j)) hlen

/--
C3: for every batch of `n` items and every completion order of the concurrent
workers (any permutation of the indices `0..n-1`), when each unit produces a
summary, the scheduler output of `_process_emails_parallel` is a list of length
`n` whose entry at index `i` is the summary produced for input item `i` — the
original batch order is preserved independent of completion order.
-/
theorem claim3_order_preserved (n : Nat) (p : Nat → String) (outcome : Nat → UnitResult)
    (order : List Nat) (hperm : order.Perm (List.range n))
    (hok : ∀ i, i < n → outcome i = .ok (p i)) :
    (_process_emails_parallel n outcome order).length = n
    ∧ ∀ i, i < n → (_process_emails_parallel n outcome order)[i]? = some (some (p i)) := by
  constructor
  · rw [_process_emails_parallel, processCompletions_length, List.length_replicate]
  · intro i hi
    exact processCompletions_all_ok outcome p order (List.replicate n none) i
      (fun k hk => hok k (List.mem_range.mp (hperm.mem_iff.mp hk)))
      (hperm.mem_iff.mpr (List.mem_range.mpr hi))
      (by rw [List.length_replicate]; exact hi)

/-- Witness for C3 at a concrete reversed completion order. -/
theorem claim3_witness :
    (_process_emails_parallel 2 (fun i => .ok (toString i)) [1, 0]).length = 2
    ∧ ∀ i, i < 2 →
        (_process_emails_parallel 2 (fun i => .ok (toString i)) [1, 0])[i]? = some (some (toString i)) :=
  claim3_order_preserved 2 toString (fun i => .ok (toString i)) [1, 0]
    (by decide) (fun i _ => rfl)

/--
C8: `handle_llm_error` maps authentication errors (401/Unauthorized) to Fatal
(`should_continue = false`); missing-resource errors (404/model) to Fatal when
they carry no connection/timeout marker (the connection test precedes the 404
test in the source); rate-limit (429) and connection/timeout errors, when they
carry no earlier-matching Fatal marker, to Transient (`should_continue = true`);
every unrecognized error to Transient; and a Transient-classified unit error
leaves the scheduler loop processing the remaining completions.
-/
theorem claim8_classification (e : String) :
    ((strHasSub e "401" || strHasSub e "Unauthorized") = true →
      (handle_llm_error e).2 = false)
    ∧ ((strHasSub e "404" || strHasSub (pyLower e) "model") = true →
        (strHasSub e "Connection" || strHasSub (pyLower e) "timeout") = false →
        (handle_llm_error e).2 = false)
    ∧ ((strHasSub e "429" || strHasSub (pyLower e) "rate limit") = true →
        (strHasSub e "402" && strHasSub e "Insufficient credits") = false →
        (strHasSub e "401" || strHasSub e "Unauthorized") = false →
        (strHasSub e "404" || strHasSub (pyLower e) "model") = false →
        (handle_llm_error e).2 = true)
    ∧ ((strHasSub e "Connection" || strHasSub (pyLower e) "timeout") = true →
        (strHasSub e "402" && strHasSub e "Insufficient credits") = false →
        (strHasSub e "401" || strHasSub e "Unauthorized") = false →
        (handle_llm_error e).2 = true)
    ∧ ((strHasSub e "402" && strHasSub e "Insufficient credits") = false →
        (strHasSub e "401" || strHasSub e "Unauthorized") = false →
        (strHasSub e "Connection" || strHasSub (pyLower e) "timeout") = false →
        (strHasSub e "404" || strHasSub (pyLower e) "model") = false →
        (strHasSub e "429" || strHasSub (pyLower e) "rate limit") = false →
        (handle_llm_error e).2 = true)
    ∧ (∀ (outcome : Nat → UnitResult) (i : Nat) (rest : List Nat) (acc : List (Option String)),
        outcome i = .exn e → (handle_llm_error e).2 = true →
        processCompletions outcome (i :: rest) acc = processCompletions outcome rest acc) := by
  refine ⟨?_, ?_, ?_, ?_, ?_, ?_⟩
  · intro h
    cases h402 : (strHasSub e "402" && strHasSub e "Insufficient credits") <;>
      simp [handle_llm_error, h402, h]
  · intro h hConn
    cases h402 : (strHasSub e "402" && strHasSub e "Insufficient credits") <;>
      cases hAuth : (strHasSub e "401" || strHasSub e "Unauthorized") <;>
        simp [handle_llm_error, h402, hAuth, hConn, h]
  · intro h h402 hAuth hNf
    cases hConn : (strHasSub e "Connection" || strHasSub (pyLower e) "timeout") <;>
      simp [handle_llm_error, h402, hAuth, hConn, hNf, h]
  · intro h h402 hAuth
    simp [handle_llm_error, h402, hAuth, h]
  · intro h402 hAuth hConn hNf hRate
    simp [handle_llm_error, h402, hAuth, hConn, hNf, hRate]
  · intro outcome i rest acc houtcome hcont
    simp [processCompletions, houtcome, hcont]

/-- Witness for C8 at concrete error strings of each class. -/
theorem claim8_witness :
    (handle_llm_error "401 Unauthorized").2 = false
    ∧ (handle_llm_error "404 no such model").2 = false
    ∧ (handle_llm_error "429 rate limit exceeded").2 = true
    ∧ (handle_llm_error "Connection refused").2 = true
    ∧ (handle_llm_error "something odd happened").2 = true :=
  ⟨(claim8_classification "401 Unauthorized").1 (by decide),
   (claim8_classification "404 no such model").2.1 (by decide) (by decide),
   (claim8_classification "429 rate limit exceeded").2.2.1 (by decide) (by decide) (by decide) (by decide),
   (claim8_classification "Connection refused").2.2.2.1 (by decide) (by decide) (by decide),
   (claim8_classification "something odd happened").2.2.2.2.1
     (by decide) (by decide) (by decide) (by decide) (by decide)⟩

/-! ## Dispatcher retry theorems -/

/--
C7 counterexample: a Fatal delivery error — SMTP authentication failure — is
retried like every other error: the sender makes all 3 attempts instead of
failing immediately without retry.
-/
theorem claim7_counterexample :
    (EmailSenderTool_run (fun _ => .error "SMTPAuthenticationError 535 authentication failed")).1 = 3
    ∧ (EmailSenderTool_run (fun _ => .error "SMTPAuthenticationError 535 authentication failed")).1 ≠ 1 := by
  exact ⟨rfl, by decide⟩

/--
C7 (amended): the dispatcher delivers under a bounded retry policy with
exponential backoff (waits clamped to [2, 30] seconds and nondecreasing) and a
fixed maximum of 3 attempts, but it retries every delivery error alike: there
is no Transient/Fatal distinction, so when all attempts fail exactly 3 are made
and the last error is reported.
-/
theorem EmailSenderTool_run_eq (attempt : Nat → Except String String) :
    EmailSenderTool_run attempt =
      match attempt 1 with
      | .ok s => (1, .ok s)
      | .error _ =>
        match attempt 2 with
        | .ok s => (2, .ok s)
        | .error _ => (3, attempt 3) := rfl

theorem claim7_amended (attempt : Nat → Except String String) :
    (1 ≤ (EmailSenderTool_run attempt).1 ∧ (EmailSenderTool_run attempt).1 ≤ 3)
    ∧ ((∀ k, 1 ≤ k → k ≤ 3 → ∃ err, attempt k = .error err) →
        (EmailSenderTool_run attempt).1 = 3
        ∧ ∃ err, (EmailSenderTool_run attempt).2 = .error err)
    ∧ (∀ n, 2 ≤ wait_exponential_1_2_30 n ∧ wait_exponential_1_2_30 n ≤ 30
        ∧ wait_exponential_1_2_30 n ≤ wait_exponential_1_2_30 (n + 1)) := by
  refine ⟨?_, ?_, ?_⟩
  · rw [EmailSenderTool_run_eq]
    cases attempt 1 with
    | ok s => simp
    | error e1 =>
      cases attempt 2 with
      | ok s => simp
      | error e2 => simp
  · intro hfail
    obtain ⟨e1, h1⟩ := hfail 1 (by omega) (by omega)
    obtain ⟨e2, h2⟩ := hfail 2 (by omega) (by omega)
    obtain ⟨e3, h3⟩ := hfail 3 (by omega) (by omega)
    rw [EmailSenderTool_run_eq, h1, h2]
    exact ⟨rfl, e3, by rw [h3]⟩
  · intro n
    have hpow : 2 ^ n ≤ 2 ^ (n + 1) := Nat.pow_le_pow_right (by omega) (by omega)
    simp only [wait_exponential_1_2_30]
    omega

/-- Witness for C7 (amended) with an always-failing SMTP collaborator. -/
theorem claim7_witness :
    (EmailSenderTool_run (fun _ => .error "smtp down")).1 = 3
    ∧ ∃ err, (EmailSenderTool_run (fun _ => .error "smtp down")).2 = .error err :=
  (claim7_amended (fun _ => .error "smtp down")).2.1 (fun _ _ _ => ⟨"smtp down", rfl⟩)

/-! ## Composer lemmas: the stable descending sort -/

theorem insertByKeyDesc_perm (key : α → Nat) (a : α) (l : List α) :
    (insertByKeyDesc key a l).Perm (a :: l) := by
  induction l with
  | nil => exact List.Perm.refl _
  | cons b t ih =>
    simp only [insertByKeyDesc]
    by_cases h : key b ≤ key a
    · rw [if_pos h]
    · rw [if_neg h]
      exact (ih.cons b).trans (List.Perm.swap a b t)

theorem sortByKeyDesc_perm (key : α → Nat) (l : List α) :
    (sortByKeyDesc key l).Perm l := by
  induction l with
  | nil => exact List.Perm.refl _
  | cons a t ih => exact (insertByKeyDesc_perm key a _).trans (ih.cons a)

theorem insertByKeyDesc_pairwise (key : α → Nat) (a : α) (l : List α)
    (h : l.Pairwise (fun x y => key y ≤ key x)) :
    (insertByKeyDesc key a l).Pairwise (fun x y => key y ≤ key x) := by
  induction l with
  | nil => simp [insertByKeyDesc]
  | cons b t ih =>
    obtain ⟨hb, ht⟩ := List.pairwise_cons.mp h
    simp only [insertByKeyDesc]
    by_cases hba : key b ≤ key a
    · rw [if_pos hba]
      refine List.pairwise_cons.mpr ⟨?_, h⟩
      intro y hy
      rcases List.mem_cons.mp hy with rfl | hy₂
      · exact hba
      · exact le_trans (hb y hy₂) hba
    · rw [if_neg hba]
      refine List.pairwise_cons.mpr ⟨?_, ih ht⟩
      intro y hy
      rcases List.mem_cons.mp ((insertByKeyDesc_perm key a t).mem_iff.mp hy) with rfl | hy₂
      · exact Nat.le_of_lt (Nat.lt_of_not_le hba)
      · exact hb y hy₂

theorem sortByKeyDesc_pairwise (key : α → Nat) (l : List α) :
    (sortByKeyDesc key l).Pairwise (fun x y => key y ≤ key x) := by
  induction l with
  | nil => simp [sortByKeyDesc]
  | cons a t ih => exact insertByKeyDesc_pairwise key a _ ih

theorem filter_insertByKeyDesc (key : α → Nat) (a : α) (l : List α) (r : Nat) :
    (insertByKeyDesc key a l).filter (fun x => key x == r)
      = if key a = r then a :: l.filter (fun x => key x == r)
        else l.filter (fun x => key x == r) := by
  induction l with
  | nil => by_cases har : key a = r <;> simp [insertByKeyDesc, List.filter_cons, beq_iff_eq, har]
  | cons b t ih =>
    simp only [insertByKeyDesc]
    by_cases hba : key b ≤ key a
    · rw [if_pos hba]
      by_cases har : key a = r <;> simp [List.filter_cons, beq_iff_eq, har]
    · rw [if_neg hba]
      have hab : key a < key b := Nat.lt_of_not_le hba
      simp only [List.filter_cons, ih]
      by_cases har : key a = r
      · have hbr : ¬ key b = r := by omega
        simp [beq_iff_eq, har, hbr]
      · by_cases hbr : key b = r <;> simp [beq_iff_eq, har, hbr]

theorem filter_sortByKeyDesc (key : α → Nat) (l : List α) (r : Nat) :
    (sortByKeyDesc key l).filter (fun x => key x == r)
      = l.filter (fun x => key x == r) := by
  induction l with
  | nil => rfl
  | cons a t ih =>
    simp only [sortByKeyDesc, filter_insertByKeyDesc, ih]
    by_cases har : key a = r <;> simp [List.filter_cons, beq_iff_eq, har]

/-! ## Rating-extraction lemmas: every character of the result comes from the input -/

theorem mem_of_matchLit (lit : List Char) {s r : List Char} (h : matchLit lit s = some r) :
    ∀ c ∈ r, c ∈ s := by
  induction lit generalizing s with
  | nil =>
    simp only [matchLit, Option.some_inj] at h
    subst h; exact fun c hc => hc
  | cons x lit ih =>
    cases s with
    | nil => simp [matchLit] at h
    | cons a t =>
      simp only [matchLit] at h
      by_cases hx : a.toLower = x
      · rw [if_pos hx] at h
        exact fun c hc => List.mem_cons_of_mem a (ih h c hc)
      · rw [if_neg hx] at h; cases h

theorem mem_of_matchTdTail {s g : List Char} (h : matchTdTail s = some g) :
    ∀ c ∈ g, c ∈ s := by
  unfold matchTdTail at h
  cases hdrop : s.dropWhile (fun c => c ≠ '>') with
  | nil => rw [hdrop] at h; cases h
  | cons x afterGt =>
    rw [hdrop] at h
    dsimp only at h
    by_cases hemp : (afterGt.takeWhile (fun c => c ≠ '<')).isEmpty = true
    · rw [if_pos hemp] at h; cases h
    · rw [if_neg hemp] at h
      by_cases htd : (matchLit "</td>".data (afterGt.dropWhile (fun c => c ≠ '<'))).isSome = true
      · rw [if_pos htd] at h
        obtain rfl : afterGt.takeWhile (fun c => c ≠ '<') = g := Option.some_inj.mp h
        intro c hc
        have h₁ : c ∈ afterGt := (List.takeWhile_sublist _).mem hc
        have h₂ : c ∈ s.dropWhile (fun c => c ≠ '>') := by
          rw [hdrop]; exact List.mem_cons_of_mem x h₁
        exact (List.dropWhile_sublist _).mem h₂
      · rw [if_neg htd] at h; cases h

theorem mem_of_matchTdAt {s g : List Char} (h : matchTdAt s = some g) :
    ∀ c ∈ g, c ∈ s := by
  unfold matchTdAt at h
  cases hlit : matchLit "<td".data s with
  | none => rw [hlit] at h; cases h
  | some afterTd =>
    rw [hlit] at h
    dsimp only at h
    by_cases hcol : hasColorSpec (afterTd.takeWhile (fun c => c ≠ '>')) = true
    · rw [if_pos hcol] at h
      exact fun c hc => mem_of_matchLit _ hlit c (mem_of_matchTdTail h c hc)
    · rw [if_neg hcol] at h; cases h

theorem mem_of_searchTd {s g : List Char} (h : searchTd s = some g) :
    ∀ c ∈ g, c ∈ s := by
  induction s with
  | nil => cases h
  | cons a t ih =>
    simp only [searchTd] at h
    cases hat : matchTdAt (a :: t) with
    | some g₂ =>
      rw [hat] at h
      obtain rfl : g₂ = g := Option.some_inj.mp h
      exact mem_of_matchTdAt hat
    | none =>
      rw [hat] at h
      exact fun c hc => List.mem_cons_of_mem a (ih h c hc)

theorem mem_of_pyStrip {s : List Char} : ∀ c ∈ pyStrip s, c ∈ s := by
  intro c hc
  unfold pyStrip at hc
  rw [List.mem_reverse] at hc
  have h₁ : c ∈ (s.dropWhile isPySpace).reverse := (List.dropWhile_sublist _).mem hc
  rw [List.mem_reverse] at h₁
  exact (List.dropWhile_sublist _).mem h₁

theorem countChar_eq_zero {c : Char} {s : List Char} (h : c ∉ s) : countChar c s = 0 :=
  List.countP_eq_zero.mpr (fun a ha => by
    simp only [decide_eq_true_eq]
    rintro rfl
    exact h ha)

theorem mem_of_splitNl {s : List Char} : ∀ l ∈ splitNl s, ∀ c ∈ l, c ∈ s := by
  induction s with
  | nil =>
    intro l hl c hc
    simp only [splitNl, List.mem_singleton] at hl
    subst hl; cases hc
  | cons a t ih =>
    intro l hl c hc
    simp only [splitNl] at hl
    by_cases ha : a = '\n'
    · rw [if_pos ha] at hl
      rcases List.mem_cons.mp hl with rfl | hl₂
      · cases hc
      · exact List.mem_cons_of_mem a (ih l hl₂ c hc)
    · rw [if_neg ha] at hl
      cases hr : splitNl t with
      | nil =>
        rw [hr] at hl
        simp only [List.mem_singleton] at hl
        subst hl
        have hca : c = a := List.mem_singleton.mp hc
        subst hca
        exact List.mem_cons_self c t
      | cons l₀ ls =>
        rw [hr] at hl
        rcases List.mem_cons.mp hl with rfl | hl₂
        · rcases List.mem_cons.mp hc with rfl | hc₂
          · exact List.mem_cons_self c t
          · refine List.mem_cons_of_mem a (ih l₀ ?_ c hc₂)
            rw [hr]; exact List.mem_cons_self l₀ ls
        · refine List.mem_cons_of_mem a (ih l ?_ c hc)
          rw [hr]; exact List.mem_cons_of_mem l₀ hl₂

theorem findStarLine_eq_zero (lines : List (List Char)) (h : ∀ l ∈ lines, '★' ∉ l) :
    findStarLine lines = 0 := by
  induction lines with
  | nil => rfl
  | cons l ls ih =>
    simp only [findStarLine]
    by_cases hc : (l.contains '★' || l.contains '☆') = true
    · rw [if_pos hc]
      exact countChar_eq_zero (h l (List.mem_cons_self l ls))
    · rw [if_neg hc]
      exact ih (fun x hx => h x (List.mem_cons_of_mem l hx))

theorem rating_zero_of_no_star (s : String) (h : '★' ∉ s.data) :
    _extract_rating_from_html s = 0 := by
  unfold _extract_rating_from_html
  cases hsearch : searchTd s.data with
  | some g =>
    refine countChar_eq_zero ?_
    intro hmem
    exact h (mem_of_searchTd hsearch _ (mem_of_pyStrip _ hmem))
  | none =>
    exact findStarLine_eq_zero _ (fun l hl hc => h (mem_of_splitNl l hl _ hc))

/--
C6: the composer orders the truthy summaries by the star rating extracted from
each payload (count of `'★'`), higher first; ties keep the original batch order
(the filter of the output at any fixed rating equals the filter of the input,
and the output is a permutation of the input); and rating extraction is total
with default 0: any payload without a `'★'` glyph rates 0 (no exception path
exists in the embedding).
-/
theorem claim6_composer_ordering (summary_htmls : List (Option String)) (archive_path : Option String) :
    ((compose_final_html_body summary_htmls archive_path).cards).Pairwise
        (fun x y => _extract_rating_from_html y ≤ _extract_rating_from_html x)
    ∧ (∀ r : Nat,
        ((compose_final_html_body summary_htmls archive_path).cards).filter
            (fun s => _extract_rating_from_html s == r)
          = (collectTruthy summary_htmls).filter (fun s => _extract_rating_from_html s == r))
    ∧ ((compose_final_html_body summary_htmls archive_path).cards).Perm
        (collectTruthy summary_htmls)
    ∧ (∀ s : String, '★' ∉ s.data → _extract_rating_from_html s = 0) := by
  refine ⟨?_, ?_, ?_, ?_⟩
  · exact sortByKeyDesc_pairwise _ _
  · intro r
    exact filter_sortByKeyDesc _ _ r
  · exact sortByKeyDesc_perm _ _
  · exact rating_zero_of_no_star

/-- Witness for C6: concrete cards with ratings 1 and 2 ordered higher-first,
and a star-free payload rating 0. -/
theorem claim6_witness :
    ((compose_final_html_body [some "B ★", none, some "A ★★"] none).cards).Pairwise
        (fun x y => _extract_rating_from_html y ≤ _extract_rating_from_html x)
    ∧ ((compose_final_html_body [some "B ★", none, some "A ★★"] none).cards).filter
          (fun s => _extract_rating_from_html s == 1)
        = (collectTruthy [some "B ★", none, some "A ★★"]).filter
            (fun s => _extract_rating_from_html s == 1)
    ∧ _extract_rating_from_html "no stars here" = 0 :=
  ⟨(claim6_composer_ordering [some "B ★", none, some "A ★★"] none).1,
   (claim6_composer_ordering [some "B ★", none, some "A ★★"] none).2.1 1,
   (claim6_composer_ordering [] none).2.2.2 "no stars here" (by decide)⟩

/-! ## Intake and idempotency-store lemmas -/

theorem contains_iff_mem (l : List String) (a : String) : l.contains a = true ↔ a ∈ l :=
  List.elem_iff

theorem uniqId_isEmpty_false (mid : String) (uid : Nat) (fname : String) :
    (uniqId mid uid fname).isEmpty = false := by
  unfold uniqId
  by_cases hm : mid.isEmpty = true
  · rw [if_pos hm]
    rw [Bool.eq_false_iff]
    intro hcontra
    have h0 : ("uid-" ++ toString uid ++ "-" ++ fname : String) = "" :=
      (String.isEmpty_iff _).mp hcontra
    have h1 := congrArg String.data h0
    rw [String.data_append, String.data_append, String.data_append] at h1
    simp at h1
  · rw [if_neg hm]
    exact Bool.eq_false_iff.mpr hm

theorem intakeUidStep_inv (pids : List String) (f : Folder) (st : IntakeState) (uid : Nat)
    (h : IntakeInv pids st) : IntakeInv pids (intakeUidStep pids f st uid) := by
  unfold intakeUidStep
  cases f.meta uid with
  | none => exact h
  | some env =>
    dsimp only
    by_cases hc : pids.contains (uniqId env.messageId uid f.name) = true
    · rw [if_pos hc]; exact h
    · rw [if_neg hc]
      obtain ⟨h₁, h₂, h₃⟩ := h
      refine ⟨?_, ?_, ?_⟩
      · intro x hx
        rcases List.mem_append.mp hx with hx₁ | hx₂
        · exact h₁ x hx₁
        · rw [List.mem_singleton.mp hx₂]
          exact Bool.eq_false_iff.mpr hc
      · intro e he
        rcases List.mem_append.mp he with he₁ | he₂
        · exact h₂ e he₁
        · rw [List.mem_singleton.mp he₂]
          exact uniqId_isEmpty_false env.messageId uid f.name
      · rw [List.map_append, h₃]
        rfl

theorem foldl_intakeUidStep_inv (pids : List String) (f : Folder) (l : List Nat)
    (st : IntakeState) (h : IntakeInv pids st) :
    IntakeInv pids (l.foldl (intakeUidStep pids f) st) := by
  induction l generalizing st with
  | nil => exact h
  | cons u rest ih => exact ih _ (intakeUidStep_inv pids f st u h)

theorem intakeFolderStep_inv (pids : List String) (m : Nat) (st : IntakeState) (f : Folder)
    (h : IntakeInv pids st) : IntakeInv pids (intakeFolderStep pids m st f) :=
  foldl_intakeUidStep_inv pids f _ st h

theorem intakeRun_inv (folders : List Folder) (m : Int) (pids : List String) :
    IntakeInv pids (intakeRun folders m pids) := by
  unfold intakeRun
  generalize hinit : (⟨[], [], []⟩ : IntakeState) = st₀
  have h₀ : IntakeInv pids st₀ := by
    subst hinit
    exact ⟨fun x hx => absurd hx (List.not_mem_nil x), fun e he => absurd he (List.not_mem_nil e), rfl⟩
  clear hinit
  induction folders generalizing st₀ with
  | nil => exact h₀
  | cons f rest ih => exact ih _ (intakeFolderStep_inv pids _ st₀ f h₀)

theorem intake_results_map_id (pids : List String) (st : IntakeState) (h : IntakeInv pids st) :
    st.results.map MsgRecord.id = st.new_ids :=
  h.2.2

theorem intake_results_nil_iff (pids : List String) (st : IntakeState) (h : IntakeInv pids st) :
    st.results = [] ↔ st.new_ids = [] := by
  rw [← intake_results_map_id pids st h, List.map_eq_nil_iff]

/-- Membership in the intake-written store: exactly the pre-run ids plus the
newly registered ones. This reading does not depend on the model's choice of
serialization order for the Python set. -/
theorem mem_saveProcessedIds (L N : List String) (x : String) :
    x ∈ saveProcessedIds L N ↔ x ∈ L ∨ x ∈ N := by
  unfold saveProcessedIds
  rw [List.mem_append, List.mem_dedup]
  constructor
  · rintro (h | h)
    · exact Or.inl h
    · exact Or.inr (List.mem_dedup.mp (List.mem_filter.mp h).1)
  · rintro (h | h)
    · exact Or.inl h
    · by_cases hL : x ∈ L
      · exact Or.inl hL
      · refine Or.inr (List.mem_filter.mpr ⟨List.mem_dedup.mpr h, ?_⟩)
        simp only [decide_eq_true_eq]
        intro hcon
        exact hL ((contains_iff_mem L x).mp hcon)

/-! ## Run-coordinator scenario equations -/

theorem run_pipeline_no_new (env : RunEnv)
    (hres : (intakeRun env.folders env.limit env.initialStore).results = []) :
    run_pipeline env = ⟨"no_new_emails", 0, env.initialStore, env.legacyStore, false, none⟩ := by
  have hnew : (intakeRun env.folders env.limit env.initialStore).new_ids = [] :=
    (intake_results_nil_iff _ _ (intakeRun_inv env.folders env.limit env.initialStore)).mp hres
  simp only [run_pipeline, hres, hnew]
  simp

theorem run_pipeline_interrupted (env : RunEnv) (intr : RunInterrupt)
    (hintr : env.interrupt = some intr)
    (hres : (intakeRun env.folders env.limit env.initialStore).results ≠ []) :
    run_pipeline env =
      ⟨interruptStatus intr,
       (intakeRun env.folders env.limit env.initialStore).results.length,
       saveProcessedIds env.initialStore
         (intakeRun env.folders env.limit env.initialStore).new_ids,
       mark_emails_as_unprocessed env.legacyStore
         (intakeRun env.folders env.limit env.initialStore).results,
       false, none⟩ := by
  have hinv := intakeRun_inv env.folders env.limit env.initialStore
  have hnew : (intakeRun env.folders env.limit env.initialStore).new_ids ≠ [] :=
    fun h => hres ((intake_results_nil_iff _ _ hinv).mpr h)
  have hres' : ¬ ((intakeRun env.folders env.limit env.initialStore).results.isEmpty = true) :=
    fun h => hres (List.isEmpty_iff.mp h)
  have hnew' : ¬ ((intakeRun env.folders env.limit env.initialStore).new_ids.isEmpty = true) :=
    fun h => hnew (List.isEmpty_iff.mp h)
  simp only [run_pipeline, hintr]
  rw [if_neg hnew', if_neg hres']

theorem run_pipeline_sent (env : RunEnv) (u : Unit)
    (hintr : env.interrupt = none)
    (hres : (intakeRun env.folders env.limit env.initialStore).results ≠ [])
    (hsend : env.sendResult = .ok u) :
    run_pipeline env =
      ⟨"sent",
       (intakeRun env.folders env.limit env.initialStore).results.length,
       saveProcessedIds env.initialStore
         (intakeRun env.folders env.limit env.initialStore).new_ids,
       env.legacyStore,
       true,
       some (compose_final_html_body
         (_process_emails_parallel
           (intakeRun env.folders env.limit env.initialStore).results.length
           env.llmOutcome env.completionOrder)
         (if (collectTruthy (_process_emails_parallel
               (intakeRun env.folders env.limit env.initialStore).results.length
               env.llmOutcome env.completionOrder)).isEmpty then none
          else if env.archiveOk then some "archive.html" else none))⟩ := by
  have hinv := intakeRun_inv env.folders env.limit env.initialStore
  have hnew : (intakeRun env.folders env.limit env.initialStore).new_ids ≠ [] :=
    fun h => hres ((intake_results_nil_iff _ _ hinv).mpr h)
  have hres' : ¬ ((intakeRun env.folders env.limit env.initialStore).results.isEmpty = true) :=
    fun h => hres (List.isEmpty_iff.mp h)
  have hnew' : ¬ ((intakeRun env.folders env.limit env.initialStore).new_ids.isEmpty = true) :=
    fun h => hnew (List.isEmpty_iff.mp h)
  simp only [run_pipeline, hintr, hsend]
  rw [if_neg hnew', if_neg hres']

theorem run_pipeline_send_failed (env : RunEnv) (err : String)
    (hintr : env.interrupt = none)
    (hres : (intakeRun env.folders env.limit env.initialStore).results ≠ [])
    (hsend : env.sendResult = .error err) :
    run_pipeline env =
      ⟨"send_failed",
       (intakeRun env.folders env.limit env.initialStore).results.length,
       saveProcessedIds env.initialStore
         (intakeRun env.folders env.limit env.initialStore).new_ids,
       mark_emails_as_unprocessed env.legacyStore
         (intakeRun env.folders env.limit env.initialStore).results,
       true,
       some (compose_final_html_body
         (_process_emails_parallel
           (intakeRun env.folders env.limit env.initialStore).results.length
           env.llmOutcome env.completionOrder)
         (if (collectTruthy (_process_emails_parallel
               (intakeRun env.folders env.limit env.initialStore).results.length
               env.llmOutcome env.completionOrder)).isEmpty then none
          else if env.archiveOk then some "archive.html" else none))⟩ := by
  have hinv := intakeRun_inv env.folders env.limit env.initialStore
  have hnew : (intakeRun env.folders env.limit env.initialStore).new_ids ≠ [] :=
    fun h => hres ((intake_results_nil_iff _ _ hinv).mpr h)
  have hres' : ¬ ((intakeRun env.folders env.limit env.initialStore).results.isEmpty = true) :=
    fun h => hres (List.isEmpty_iff.mp h)
  have hnew' : ¬ ((intakeRun env.folders env.limit env.initialStore).new_ids.isEmpty = true) :=
    fun h => hnew (List.isEmpty_iff.mp h)
  simp only [run_pipeline, hintr, hsend]
  rw [if_neg hnew', if_neg hres']

/--
C2 code-bug evaluation: the restoration the claim requires does not happen.
`mark_emails_as_unprocessed` resolves its `state_file` two `dirname`s above
`chain.py`, i.e. `<root>/state/processed_emails.json`, while the reader's
Idempotency Store is `<root>/src/state/processed_emails.json`, so the rollback
edits a record the reader never consults (or nothing at all when that legacy
file is absent). In the concrete timed-out run — store empty before the run,
legacy file absent, two new messages intaken — the run ends with both batch
ids still in the Idempotency Store, which therefore differs from its pre-run
state, and the legacy record stays absent.
-/
theorem claim2_bug_eval :
    (run_pipeline envTimeout).status = "timeout"
    ∧ (run_pipeline envTimeout).finalStore = ["m2", "m1"]
    ∧ (run_pipeline envTimeout).finalStore ≠ envTimeout.initialStore
    ∧ (run_pipeline envTimeout).finalLegacy = none
    ∧ envTimeout.interrupt = some .timeout :=
  ⟨rfl, rfl, by decide, rfl, rfl⟩

/--
C1 counterexample: in `envAllFail` both intaken messages fail summarization
(zero successful summaries), the send succeeds, and yet the Idempotency Store
ends the run holding both ids `m2` and `m1` — they were written during Intake,
not after delivery, and failed items are not eligible for retry.
-/
theorem claim1_counterexample :
    (run_pipeline envAllFail).finalStore = ["m2", "m1"]
    ∧ (run_pipeline envAllFail).status = "sent"
    ∧ envAllFail.llmOutcome 0 = .exn "boom"
    ∧ collectTruthy (runSummaries envAllFail) = [] :=
  ⟨rfl, rfl, rfl, rfl⟩

/--
C1 (amended): the Idempotency Store is written during Intake with every newly
selected id, and no later step of the run writes it again — delivery success
commits nothing further, and the rollback attempted on failure or interruption
opens the legacy `<root>/state` path instead of the reader's store — so after
every run with a non-empty batch the store is exactly the intake-written one:
its members are the pre-run ids plus all batch ids, including ids of items
whose summarization failed, which therefore do not remain eligible for retry.
-/
theorem claim1_amended (env : RunEnv)
    (hres : (intakeRun env.folders env.limit env.initialStore).results ≠ []) :
    (run_pipeline env).finalStore
      = saveProcessedIds env.initialStore
          (intakeRun env.folders env.limit env.initialStore).new_ids
    ∧ (∀ x, x ∈ (run_pipeline env).finalStore
        ↔ x ∈ env.initialStore
          ∨ x ∈ (intakeRun env.folders env.limit env.initialStore).new_ids)
    ∧ ∀ x ∈ (intakeRun env.folders env.limit env.initialStore).new_ids,
        x ∈ (run_pipeline env).finalStore := by
  have hstore : (run_pipeline env).finalStore
      = saveProcessedIds env.initialStore
          (intakeRun env.folders env.limit env.initialStore).new_ids := by
    cases hintr : env.interrupt with
    | some intr => rw [run_pipeline_interrupted env intr hintr hres]
    | none =>
      cases hsend : env.sendResult with
      | ok u => rw [run_pipeline_sent env u hintr hres hsend]
      | error err => rw [run_pipeline_send_failed env err hintr hres hsend]
  refine ⟨hstore, ?_, ?_⟩
  · intro x
    rw [hstore]
    exact mem_saveProcessedIds _ _ x
  · intro x hx
    rw [hstore]
    exact (mem_saveProcessedIds _ _ x).mpr (Or.inr hx)

/-- Witness for C1 (amended) on the all-fail successful-send run. -/
theorem claim1_witness :
    (run_pipeline envAllFail).finalStore
      = saveProcessedIds envAllFail.initialStore
          (intakeRun envAllFail.folders envAllFail.limit envAllFail.initialStore).new_ids
    ∧ (∀ x, x ∈ (run_pipeline envAllFail).finalStore
        ↔ x ∈ envAllFail.initialStore
          ∨ x ∈ (intakeRun envAllFail.folders envAllFail.limit envAllFail.initialStore).new_ids)
    ∧ ∀ x ∈ (intakeRun envAllFail.folders envAllFail.limit envAllFail.initialStore).new_ids,
        x ∈ (run_pipeline envAllFail).finalStore :=
  claim1_amended envAllFail (by decide)

/--
C4 counterexample: in `envAllFail` every summarization attempt fails, yet the
run still reaches Dispatching (the send tool is invoked, the run reports
"sent") and the Idempotency Store is changed rather than left untouched.
-/
theorem claim4_counterexample :
    collectTruthy (runSummaries envAllFail) = []
    ∧ (run_pipeline envAllFail).sendAttempted = true
    ∧ (run_pipeline envAllFail).status = "sent"
    ∧ (run_pipeline envAllFail).finalStore ≠ envAllFail.initialStore :=
  ⟨rfl, rfl, rfl, by decide⟩

/--
C4 (amended): a batch in which all summarization attempts fail still proceeds
through Composing to Dispatching: the archive step is skipped, an empty digest
(no cards, no archive footer) is composed and handed to the send tool; the run
reports "sent" when the send succeeds and "send_failed" when it fails, and in
both cases the intake-written batch ids remain in the Idempotency Store — the
rollback attempted on send failure edits only the legacy `<root>/state`
record, not the reader's store.
-/
theorem claim4_amended (env : RunEnv)
    (hintr : env.interrupt = none)
    (hres : (intakeRun env.folders env.limit env.initialStore).results ≠ [])
    (hall : collectTruthy (runSummaries env) = []) :
    (run_pipeline env).sendAttempted = true
    ∧ (run_pipeline env).composed = some ⟨[], false⟩
    ∧ (run_pipeline env).finalStore
      = saveProcessedIds env.initialStore
          (intakeRun env.folders env.limit env.initialStore).new_ids
    ∧ (∀ u, env.sendResult = .ok u → (run_pipeline env).status = "sent"
        ∧ (run_pipeline env).finalLegacy = env.legacyStore)
    ∧ (∀ err, env.sendResult = .error err → (run_pipeline env).status = "send_failed"
        ∧ (run_pipeline env).finalLegacy
          = mark_emails_as_unprocessed env.legacyStore
              (intakeRun env.folders env.limit env.initialStore).results) := by
  unfold runSummaries at hall
  have hdoc : compose_final_html_body
      (_process_emails_parallel
        (intakeRun env.folders env.limit env.initialStore).results.length
        env.llmOutcome env.completionOrder)
      (if (collectTruthy (_process_emails_parallel
            (intakeRun env.folders env.limit env.initialStore).results.length
            env.llmOutcome env.completionOrder)).isEmpty then none
       else if env.archiveOk then some "archive.html" else none)
      = ⟨[], false⟩ := by
    rw [compose_final_html_body, hall]
    rfl
  cases hsend : env.sendResult with
  | ok u =>
    rw [run_pipeline_sent env u hintr hres hsend]
    exact ⟨rfl, by rw [hdoc], rfl, fun v _ => ⟨rfl, rfl⟩, fun e herr => nomatch herr⟩
  | error err =>
    rw [run_pipeline_send_failed env err hintr hres hsend]
    exact ⟨rfl, by rw [hdoc], rfl, fun v hv => Except.noConfusion hv, fun e he => ⟨rfl, rfl⟩⟩

/-- Witness for C4 (amended) on the all-fail successful-send run. -/
theorem claim4_witness :
    (run_pipeline envAllFail).sendAttempted = true
    ∧ (run_pipeline envAllFail).composed = some ⟨[], false⟩
    ∧ (run_pipeline envAllFail).status = "sent" := by
  have h := claim4_amended envAllFail rfl (by decide) rfl
  exact ⟨h.1, h.2.1, (h.2.2.2.1 () rfl).1⟩

/--
C5 counterexample: in `envTimeout` the first unit has already produced a
summary when the deadline expires, yet the run aborts with status "timeout":
nothing is composed, no delivery is attempted, and the collected success is
discarded rather than preserved for downstream composition — while both batch
ids remain in the Idempotency Store, so the items are not even retried.
-/
theorem claim5_counterexample :
    (run_pipeline envTimeout).status = "timeout"
    ∧ (run_pipeline envTimeout).sendAttempted = false
    ∧ (run_pipeline envTimeout).composed = none
    ∧ (run_pipeline envTimeout).finalStore = ["m2", "m1"]
    ∧ envTimeout.llmOutcome 0 = .ok "<p>card</p>" :=
  ⟨rfl, rfl, rfl, rfl, rfl⟩

/--
C5 (amended): when the run-level deadline expires before all units complete,
the `as_completed` TimeoutError propagates out of the scheduler and aborts the
whole run: the run reports status "timeout" and composes and dispatches
nothing — already-collected results are discarded — while the restoration it
attempts touches only the legacy `<root>/state` record, so the reader's
Idempotency Store keeps all intake-written batch ids.
-/
theorem claim5_amended (env : RunEnv)
    (hintr : env.interrupt = some .timeout)
    (hres : (intakeRun env.folders env.limit env.initialStore).results ≠ []) :
    (run_pipeline env).status = "timeout"
    ∧ (run_pipeline env).sendAttempted = false
    ∧ (run_pipeline env).composed = none
    ∧ (run_pipeline env).finalStore
      = saveProcessedIds env.initialStore
          (intakeRun env.folders env.limit env.initialStore).new_ids
    ∧ (run_pipeline env).finalLegacy
      = mark_emails_as_unprocessed env.legacyStore
          (intakeRun env.folders env.limit env.initialStore).results := by
  rw [run_pipeline_interrupted env .timeout hintr hres]
  exact ⟨rfl, rfl, rfl, rfl, rfl⟩

/-- Witness for C5 (amended) on the concrete timed-out run. -/
theorem claim5_witness :
    (run_pipeline envTimeout).status = "timeout"
    ∧ (run_pipeline envTimeout).sendAttempted = false
    ∧ (run_pipeline envTimeout).composed = none
    ∧ (run_pipeline envTimeout).finalStore
      = saveProcessedIds envTimeout.initialStore
          (intakeRun envTimeout.folders envTimeout.limit envTimeout.initialStore).new_ids
    ∧ (run_pipeline envTimeout).finalLegacy
      = mark_emails_as_unprocessed envTimeout.legacyStore
          (intakeRun envTimeout.folders envTimeout.limit envTimeout.initialStore).results :=
  claim5_amended envTimeout rfl (by decide)

/-! ## Intake size bounds -/

theorem intakeUidStep_length (pids : List String) (f : Folder) (st : IntakeState) (uid : Nat) :
    (intakeUidStep pids f st uid).results.length ≤ st.results.length + 1 := by
  unfold intakeUidStep
  cases f.meta uid with
  | none => dsimp only; omega
  | some env =>
    dsimp only
    by_cases hc : pids.contains (uniqId env.messageId uid f.name) = true
    · rw [if_pos hc]; omega
    · rw [if_neg hc]
      simp

theorem foldl_intakeUidStep_length (pids : List String) (f : Folder) (l : List Nat)
    (st : IntakeState) :
    (l.foldl (intakeUidStep pids f) st).results.length ≤ st.results.length + l.length := by
  induction l generalizing st with
  | nil => simp
  | cons u rest ih =>
    have h₁ := ih (intakeUidStep pids f st u)
    have h₂ := intakeUidStep_length pids f st u
    simp only [List.foldl_cons, List.length_cons]
    omega

theorem intakeFolderStep_length (pids : List String) (m : Nat) (st : IntakeState) (f : Folder) :
    (intakeFolderStep pids m st f).results.length ≤ st.results.length + m := by
  unfold intakeFolderStep
  dsimp only
  have h₁ := foldl_intakeUidStep_length pids f
    (((sortByKeyDesc (fun u => u) f.uids).take m).filter (fun u => ¬ st.sessionUids.contains u)) st
  have h₂ : (((sortByKeyDesc (fun u => u) f.uids).take m).filter
      (fun u => ¬ st.sessionUids.contains u)).length ≤ m := by
    refine le_trans (List.length_filter_le _ _) ?_
    rw [List.length_take]
    omega
  omega

theorem foldl_intakeFolderStep_length (pids : List String) (m : Nat) (folders : List Folder)
    (st : IntakeState) :
    (folders.foldl (intakeFolderStep pids m) st).results.length
      ≤ st.results.length + m * folders.length := by
  induction folders generalizing st with
  | nil => simp
  | cons f rest ih =>
    have h₁ := ih (intakeFolderStep pids m st f)
    have h₂ := intakeFolderStep_length pids m st f
    simp only [List.foldl_cons, List.length_cons]
    have : m * (rest.length + 1) = m * rest.length + m := by ring
    omega

/--
C9 counterexample: with `limit = 1` (clamped to 1) and the Gmail two-folder
configuration, intake returns 2 records — more than `limit` in total, because
the truncation to `limit` is applied per folder. And in a single folder whose
newest message is already processed, intake returns 0 records even though an
older unprocessed message exists — the candidates are truncated to the newest
`limit` before being filtered against the Idempotency Store, not after.
-/
theorem claim9_counterexample :
    (intakeRun [inboxFolder, spamFolder] 1 []).results.length = 2
    ∧ clampCount 1 = 1
    ∧ (intakeRun [inboxFolder] 1 ["m2"]).results = []
    ∧ (1 : Nat) ∈ inboxFolder.uids ∧ inboxFolder.meta 1 = some ⟨"m1", "s1", "c1"⟩
    ∧ ("m1" : String) ∉ (["m2"] : List String) :=
  ⟨rfl, rfl, rfl, by decide, rfl, by decide⟩

/--
C9 (amended): for every limit, intake returns at most `clamp(limit)` records
per folder and at most `clamp(limit) × (number of folders)` in total, where
`clamp` forces the limit into `[1, 50]`; within each folder the newest
`clamp(limit)` candidate UIDs are selected first and only then filtered
against the Idempotency Store.
-/
theorem claim9_amended (folders : List Folder) (maxCount : Int) (store : List String) :
    (intakeRun folders maxCount store).results.length ≤ clampCount maxCount * folders.length
    ∧ (∀ st f, (intakeFolderStep store (clampCount maxCount) st f).results.length
        ≤ st.results.length + clampCount maxCount) := by
  constructor
  · have h := foldl_intakeFolderStep_length store (clampCount maxCount) folders ⟨[], [], []⟩
    simpa [intakeRun] using h
  · exact fun st f => intakeFolderStep_length store (clampCount maxCount) st f

/-! ## Reader-output parsing (C10) -/

/--
C10 counterexample: the reader-output string `{"emails": "x"}` is a JSON
object but does not hold an `emails` list, yet `extract_email_contents`
returns the string `"x"`, not the empty list — `data.get("emails", [])`
passes through whatever value sits under the key.
-/
theorem claim10_counterexample :
    extract_email_contents "\x7b\"emails\": \"x\"\x7d" = Json.str "x"
    ∧ Json.str "x" ≠ Json.arr [] :=
  ⟨rfl, fun h => Json.noConfusion h⟩

/--
C10 (amended): for every reader output string that is not a JSON object with
an `emails` key — unparsable strings, non-object values, and objects without
the key, which includes the `{"error": ...}` object the reader returns on IMAP
login or read failure — `extract_email_contents` returns the empty list
without raising, and a run whose intake yields nothing returns the
`no_new_emails` status with the store untouched, so at the public interface a
mailbox failure is indistinguishable from an empty inbox.
-/
theorem claim10_amended :
    (∀ s : String, json_loads s = none → extract_email_contents s = .arr [])
    ∧ (∀ (s : String) (kvs : List (String × Json)), json_loads s = some (.obj kvs) →
        jsonGet kvs "emails" = none → extract_email_contents s = .arr [])
    ∧ (∀ (s : String) (v : Json), json_loads s = some v → (∀ kvs, v ≠ .obj kvs) →
        extract_email_contents s = .arr [])
    ∧ extract_email_contents "\x7b\"error\": \"IMAP登录失败: 请检查邮箱用户名或密码/授权码是否正确。\"\x7d" = .arr []
    ∧ (∀ env : RunEnv, (intakeRun env.folders env.limit env.initialStore).results = [] →
        (run_pipeline env).status = "no_new_emails"
        ∧ (run_pipeline env).finalStore = env.initialStore) := by
  refine ⟨?_, ?_, ?_, ?_, ?_⟩
  · intro s h
    unfold extract_email_contents
    rw [h]
  · intro s kvs h hget
    unfold extract_email_contents
    rw [h]
    dsimp only
    rw [hget]
    rfl
  · intro s v h hobj
    unfold extract_email_contents
    rw [h]
    cases v with
    | null => rfl
    | bool b => rfl
    | num r => rfl
    | str t => rfl
    | arr xs => rfl
    | obj kvs => exact absurd rfl (hobj kvs)
  · rfl
  · intro env h
    rw [run_pipeline_no_new env h]
    exact ⟨rfl, rfl⟩

/-- Witness for C10 (amended): an unparsable reader output yields the empty
list, and a run with nothing to intake reports `no_new_emails`. -/
theorem claim10_witness :
    extract_email_contents "not json" = Json.arr []
    ∧ (run_pipeline envNoMail).status = "no_new_emails" :=
  ⟨claim10_amended.1 "not json" rfl, (claim10_amended.2.2.2.2 envNoMail rfl).1⟩

end EmailSummarizer
